import Mathlib

/-!
A shallow embedding of the `goat` crate's URL parser and HTTP client
(`src/lib.rs`), together with theorems about the spec's claims.

Strings are modelled as `List Char` (Rust `&str`/`String` values, which here
only ever hold the characters themselves).  Rust functions that can panic are
modelled as returning `Except Panic _`, where each `Panic` constructor names
the concrete panic site in the source (`Option::unwrap` on `None`,
`Result::expect`, or a `todo!` macro).
-/

/-- Rust `str::split_once(sep)`: split at the first occurrence of `sep`,
discarding it; `none` when `sep` does not occur. -/
def splitOnce (sep : Char) : List Char → Option (List Char × List Char)
  | [] => none
  | c :: cs =>
    if c = sep then some ([], cs)
    else (splitOnce sep cs).map fun p => (c :: p.1, p.2)

/-- Rust `str::strip_prefix(p)`: the remainder after `p`, or `none` when the
string does not start with `p`. -/
def stripPrefixL : List Char → List Char → Option (List Char)
  | [], s => some s
  | _ :: _, [] => none
  | p :: ps, c :: cs => if c = p then stripPrefixL ps cs else none

/-- Rust `str::ends_with(ch)` for a single character. -/
def endsWithChar (ch : Char) : List Char → Bool
  | [] => false
  | [c] => c == ch
  | _ :: c :: cs => endsWithChar ch (c :: cs)

/-- Digit accumulator of Rust's integer `FromStr`: consumes decimal digits,
failing on the first non-digit character. -/
def parseNatAux : List Char → Nat → Option Nat
  | [], acc => some acc
  | c :: cs, acc =>
    if c.isDigit then parseNatAux cs (acc * 10 + (c.toNat - 48)) else none

/-- Rust `str::parse::<u16>()`: an optional leading `+`, then at least one
decimal digit, and the value must fit in 16 bits. -/
def parseU16 (s : List Char) : Option Nat :=
  let t := match s with
           | c :: rest => if c = '+' then rest else s
           | [] => s
  match t with
  | [] => none
  | _ =>
    match parseNatAux t 0 with
    | none => none
    | some n => if n < 65536 then some n else none

/-- Decimal value of a digit string (most significant digit first). -/
def decimalValue (s : List Char) : Nat :=
  s.foldl (fun acc c => acc * 10 + (c.toNat - 48)) 0

/-- One value per panic site reachable from the embedded functions. -/
inductive Panic where
  /-- `url.split_once(':').unwrap()` panicking: no `:` in the raw URL. -/
  | missingColon
  /-- `url.strip_prefix("//").unwrap()` panicking: remainder lacks `//`. -/
  | missingSlashes
  /-- `url.split_once(',').unwrap()` panicking: `data` remainder lacks `,`. -/
  | missingComma
  /-- `port.parse().expect("todo")` panicking: port segment not a `u16`. -/
  | expectPortParse
  /-- `todo!("the rest")` panicking: unrecognized scheme. -/
  | todoScheme
  /-- `todo!()` in `request_response` for non-`Web` variants. -/
  | todoFetch
deriving DecidableEq, Repr

/-- The `Url` enum of `src/lib.rs`.  `port` is a 16-bit machine integer in the
source; here a `Nat` (always < 2^16 when produced by `parseU16`). -/
inductive Url where
  | Web (scheme : List Char) (host : List Char) (port : Nat) (path : List Char)
  | File (scheme : List Char) (path : List Char)
  | Data (scheme : List Char) (mimetype : List Char) (payload : List Char)
  | ViewSource (inner : Url)
deriving DecidableEq, Repr

/-- Is the value a `Url::Web`?  (Specification-side predicate used to state the
`ViewSource` invariant.) -/
def Url.isWeb : Url → Bool
  | .Web _ _ _ _ => true
  | _ => false

/-- `Url::default_port` (lib.rs lines 94-101): the default port *string* per
scheme, `""` for anything else. -/
def Url.default_port (scheme : List Char) : List Char :=
  if scheme = "https".data then "443".data
  else if scheme = "http".data then "80".data
  else []

/-- The `"http" | "https"` arm of `Url::new` (lib.rs lines 50-77): strip the
`//` prefix, split host[:port] from the path at the first `/`, split host from
port at the first `:` (default port string when absent), normalize the path
(leading slash when non-empty, preserve a trailing slash of the remainder),
and parse the port with `expect("todo")`. -/
def webArm (scheme url : List Char) : Except Panic Url :=
  match stripPrefixL "//".data url with
  | none => .error .missingSlashes
  | some u =>
    let split1 : List Char × List Char :=
      match splitOnce '/' u with
      | some result => result
      | none => (u, [])
    let split2 : List Char × List Char :=
      match splitOnce ':' split1.1 with
      | some result => result
      | none => (split1.1, Url.default_port scheme)
    let path1 : List Char := if split1.2 ≠ [] then '/' :: split1.2 else split1.2
    let path2 : List Char :=
      if endsWithChar '/' u && !endsWithChar '/' path1 then path1 ++ ['/'] else path1
    match parseU16 split2.2 with
    | none => .error .expectPortParse
    | some port => .ok (.Web scheme split2.1 port path2)

/-- `Url::new` (lib.rs lines 47-92): split scheme at the first `:` (unwrap),
then dispatch: http/https to `webArm`, `data` splits the remainder at the
first comma (unwrap), `file` strips `//` (unwrap), `view-source` re-parses the
remainder recursively, and any other scheme hits `todo!("the rest")`. -/
def Url.new (url0 : List Char) : Except Panic Url :=
  match h : splitOnce ':' url0 with
  | none => .error .missingColon
  | some (scheme, url) =>
    if scheme = "http".data ∨ scheme = "https".data then
      webArm scheme url
    else if scheme = "data".data then
      match splitOnce ',' url with
      | none => .error .missingComma
      | some md => .ok (.Data scheme md.1 md.2)
    else if scheme = "file".data then
      match stripPrefixL "//".data url with
      | none => .error .missingSlashes
      | some p => .ok (.File scheme p)
    else if scheme = "view-source".data then
      match Url.new url with
      | .error e => .error e
      | .ok inner => .ok (.ViewSource inner)
    else
      .error .todoScheme
termination_by url0.length
decreasing_by
  have aux : ∀ (s l r : List Char), splitOnce ':' s = some (l, r) →
      r.length < s.length := by
    intro s
    induction s with
    | nil => intro l r hh; simp [splitOnce] at hh
    | cons c cs ih =>
      intro l r hh
      simp only [splitOnce] at hh
      by_cases hc : c = ':'
      · simp only [if_pos hc, Option.some.injEq, Prod.mk.injEq] at hh
        simp [← hh.2]
      · simp only [if_neg hc, Option.map_eq_some'] at hh
        obtain ⟨⟨l', r'⟩, hs, hf⟩ := hh
        have := ih l' r' hs
        have hr : r = r' := by
          have := congrArg Prod.snd hf
          simpa using this.symm
        simp [hr]
        omega
  exact aux _ _ _ h

/-- Decimal rendering of a `Nat` (Rust's `Display` for `u16`). -/
def natChars (n : Nat) : List Char := (Nat.repr n).data

/-- The `Display` impl for `Url` (lib.rs lines 28-44):
`scheme://host:port path` for `Web` (path appended verbatim),
`scheme://path` for `File`, `scheme://mimetype,data` for `Data`, and
`view-source:` followed by the inner rendering for `ViewSource`. -/
def Url.render : Url → List Char
  | .Web scheme host port path => scheme ++ "://".data ++ host ++ ':' :: natChars port ++ path
  | .File scheme path => scheme ++ "://".data ++ path
  | .Data scheme mimetype payload => scheme ++ "://".data ++ mimetype ++ ',' :: payload
  | .ViewSource inner => "view-source:".data ++ Url.render inner

/-- The `Response` struct (lib.rs lines 5-11); the `HashMap` of headers is
modelled as an association list. -/
structure Response where
  version : List Char
  status : List Char
  explanation : List Char
  headers : List (List Char × List Char)
  body : Option (List Char)
deriving DecidableEq, Repr

/-- The exact bytes `request_response` writes to the socket, in order
(lib.rs lines 160-163): the request line, a `HOST {host}` line (note: the
source writes no `:` after `HOST`), the fixed `User-Agent`, and the blank
line.  Nothing else is written. -/
def requestBytes (host path : List Char) : List Char :=
  "GET ".data ++ path ++ " HTTP/1.0\r\n".data ++
  "HOST ".data ++ host ++ "\r\n".data ++
  "User-Agent: Goat\r\n".data ++
  "\r\n".data

/-- `Url::request_response` (lib.rs lines 150-177).  The TCP transport is
modelled by returning the written bytes alongside the `Response` and passing
the bytes the server would send as the `serverBytes` argument; connection
failures are out of scope.  The source never reads from the stream (the read
on line 164 is commented out): the `Web` arm returns a `Response` whose
fields are all constants, independent of `serverBytes`, and the other arms
are `todo!()`. -/
def Url.request_response (u : Url) (serverBytes : List Char) :
    Except Panic (List Char × Response) :=
  match u, serverBytes with
  | .Web _ host _ path, _ =>
    .ok (requestBytes host path,
         { version := [], status := [], explanation := [], headers := [], body := some [] })
  | _, _ => .error .todoFetch

deriving instance DecidableEq for Except

/-! Helper lemmas about the string primitives. -/

theorem splitOnce_append (sep : Char) :
    ∀ (l r : List Char), sep ∉ l → splitOnce sep (l ++ sep :: r) = some (l, r)
  | [], r, _ => by simp [splitOnce]
  | c :: l, r, h => by
    have hc : c ≠ sep := fun e => h (e ▸ List.mem_cons_self c l)
    have ht : sep ∉ l := fun m => h (List.mem_cons_of_mem _ m)
    simp [splitOnce, hc, splitOnce_append sep l r ht]

theorem splitOnce_not_mem (sep : Char) :
    ∀ (s : List Char), sep ∉ s → splitOnce sep s = none
  | [], _ => rfl
  | c :: s, h => by
    have hc : c ≠ sep := fun e => h (e ▸ List.mem_cons_self c s)
    have ht : sep ∉ s := fun m => h (List.mem_cons_of_mem _ m)
    simp [splitOnce, hc, splitOnce_not_mem sep s ht]

theorem endsWithChar_append (ch x : Char) (r : List Char) :
    ∀ l : List Char, endsWithChar ch (l ++ x :: r) = endsWithChar ch (x :: r)
  | [] => rfl
  | [_] => rfl
  | _ :: b :: l => endsWithChar_append ch x r (b :: l)

theorem endsWithChar_not_mem (ch : Char) :
    ∀ s : List Char, ch ∉ s → endsWithChar ch s = false
  | [], _ => rfl
  | [a], h => by
    have : a ≠ ch := fun e => h (by simp [e])
    simp [endsWithChar, this]
  | a :: b :: l, h => by
    have ht : ch ∉ b :: l := fun m => h (List.mem_cons_of_mem _ m)
    simpa [endsWithChar] using endsWithChar_not_mem ch (b :: l) ht

theorem parseNatAux_digits :
    ∀ (s : List Char) (acc : Nat), (∀ c ∈ s, c.isDigit = true) →
      parseNatAux s acc = some (s.foldl (fun a c => a * 10 + (c.toNat - 48)) acc)
  | [], _, _ => rfl
  | c :: s, acc, h => by
    have hc : c.isDigit = true := h c (List.mem_cons_self c s)
    have ht : ∀ d ∈ s, d.isDigit = true := fun d hd => h d (List.mem_cons_of_mem _ hd)
    simp [parseNatAux, hc, parseNatAux_digits s _ ht]

theorem parseU16_overflow (s : List Char) (hne : s ≠ [])
    (hd : ∀ c ∈ s, c.isDigit = true) (hv : 65535 < decimalValue s) :
    parseU16 s = none := by
  cases s with
  | nil => exact absurd rfl hne
  | cons c cs =>
    have hc : c.isDigit = true := hd c (List.mem_cons_self c cs)
    have hplus : c ≠ '+' := by
      intro e
      rw [e] at hc
      exact absurd hc (by decide)
    unfold parseU16
    simp only [if_neg hplus]
    rw [parseNatAux_digits (c :: cs) 0 hd]
    show (if List.foldl (fun a d => a * 10 + (d.toNat - 48)) 0 (c :: cs) < 65536
          then some (List.foldl (fun a d => a * 10 + (d.toNat - 48)) 0 (c :: cs))
          else none) = none
    have hfold : 65535 < List.foldl (fun a d => a * 10 + (d.toNat - 48)) 0 (c :: cs) := hv
    rw [if_neg (by omega)]

/-! Helper lemmas about `Url.new` and its `webArm`. -/

theorem new_eq_webArm (sch rest : List Char) (h : sch = "http".data ∨ sch = "https".data) :
    Url.new (sch ++ ':' :: rest) = webArm sch rest := by
  rcases h with h | h <;> subst h <;> (rw [Url.new.eq_def]; rfl)

theorem new_viewSource_eq (rest : List Char) :
    Url.new ("view-source:".data ++ rest) = (Url.new rest).map Url.ViewSource := by
  rw [Url.new.eq_def]
  show (match Url.new rest with
        | .error e => .error e
        | .ok inner => .ok (.ViewSource inner)) = (Url.new rest).map Url.ViewSource
  cases Url.new rest <;> rfl

theorem webArm_hostTail (sch host tail : List Char) (h1 : ':' ∉ host) (h2 : '/' ∉ host) :
    webArm sch ("//".data ++ host ++ '/' :: tail) =
      match parseU16 (Url.default_port sch) with
      | none => .error .expectPortParse
      | some p => .ok (.Web sch host p (if tail = [] then ['/'] else '/' :: tail)) := by
  have e0 : stripPrefixL "//".data ("//".data ++ host ++ '/' :: tail)
      = some (host ++ '/' :: tail) := rfl
  have e1 : splitOnce '/' (host ++ '/' :: tail) = some (host, tail) :=
    splitOnce_append '/' host tail h2
  have e2 : splitOnce ':' host = none := splitOnce_not_mem ':' host h1
  have e3 : endsWithChar '/' (host ++ '/' :: tail) = endsWithChar '/' ('/' :: tail) :=
    endsWithChar_append '/' '/' tail host
  cases tail with
  | nil =>
    simp only [webArm, e0, e1, e2, e3]
    simp [endsWithChar]
  | cons a as =>
    simp only [webArm, e0, e1, e2, e3]
    have e4 : endsWithChar '/' ('/' :: a :: as) = endsWithChar '/' (a :: as) := rfl
    simp [e4, Bool.and_not_self]

theorem webArm_hostOnly (sch host : List Char) (h1 : ':' ∉ host) (h2 : '/' ∉ host) :
    webArm sch ("//".data ++ host) =
      match parseU16 (Url.default_port sch) with
      | none => .error .expectPortParse
      | some p => .ok (.Web sch host p []) := by
  have e0 : stripPrefixL "//".data ("//".data ++ host) = some host := rfl
  have e1 : splitOnce '/' host = none := splitOnce_not_mem '/' host h2
  have e2 : splitOnce ':' host = none := splitOnce_not_mem ':' host h1
  have e3 : endsWithChar '/' host = false := endsWithChar_not_mem '/' host h2
  simp only [webArm, e0, e1, e2, e3]
  simp

theorem webArm_hostPortTail (sch host t tail : List Char)
    (h1 : ':' ∉ host) (h2 : '/' ∉ host) (h3 : '/' ∉ t) :
    webArm sch ("//".data ++ host ++ ':' :: t ++ '/' :: tail) =
      match parseU16 t with
      | none => .error .expectPortParse
      | some p => .ok (.Web sch host p (if tail = [] then ['/'] else '/' :: tail)) := by
  have e0 : stripPrefixL "//".data ("//".data ++ host ++ ':' :: t ++ '/' :: tail)
      = some ((host ++ ':' :: t) ++ '/' :: tail) := rfl
  have hm : '/' ∉ host ++ ':' :: t := by
    intro m
    rcases List.mem_append.1 m with m | m
    · exact h2 m
    · rcases List.mem_cons.1 m with m | m
      · exact absurd m.symm (by decide)
      · exact h3 m
  have e1 : splitOnce '/' ((host ++ ':' :: t) ++ '/' :: tail) = some (host ++ ':' :: t, tail) :=
    splitOnce_append '/' (host ++ ':' :: t) tail hm
  have e2 : splitOnce ':' (host ++ ':' :: t) = some (host, t) :=
    splitOnce_append ':' host t h1
  have e3 : endsWithChar '/' ((host ++ ':' :: t) ++ '/' :: tail) = endsWithChar '/' ('/' :: tail) :=
    endsWithChar_append '/' '/' tail (host ++ ':' :: t)
  cases tail with
  | nil =>
    simp only [webArm, e0, e1, e2, e3]
    simp [endsWithChar]
  | cons a as =>
    simp only [webArm, e0, e1, e2, e3]
    have e4 : endsWithChar '/' ('/' :: a :: as) = endsWithChar '/' (a :: as) := rfl
    simp [e4, Bool.and_not_self]

/-! Theorems for the spec's claims. -/

/-- C1: the claim says fetching against a server that answers
`HTTP/1.0 200 OK` with a `content-type: text/html` header and body
`<html>hi</html>` yields a `Response` with status "200", a lowercased
`content-type` header, and the server's body.  The code never reads the
stream: for any server bytes it returns a `Response` whose status is the
empty string (not "200"), whose header map is empty, and whose body is
`Some("")` (not the server's body).  This also contradicts the repository's
own test `request_response` (lib.rs lines 355-373). -/
theorem c1_response_is_constant :
    Url.request_response (.Web "http".data "127.0.0.1".data 80 "/data/index.html".data)
        "HTTP/1.0 200 OK\r\nContent-Type: text/html\r\n\r\n<html>hi</html>".data
      = .ok (requestBytes "127.0.0.1".data "/data/index.html".data,
             { version := [], status := [], explanation := [], headers := [], body := some [] })
    ∧ ([] : List Char) ≠ "200".data
    ∧ (some ([] : List Char)) ≠ some "<html>hi</html>".data :=
  ⟨rfl, by decide, by decide⟩

/-- C2: the claim says a missing required delimiter (no `:` scheme
delimiter, no `,` in a `data` remainder, no `//` after `file:`/`http:`/
`https:`) yields a `MalformedUrl` error and never a panic.  The code has no
such error: each case panics via `Option::unwrap` on `None`, modelled here
as the corresponding `Panic` value. -/
theorem c2_missing_delimiters_panic :
    Url.new "example.org".data = .error Panic.missingColon
    ∧ Url.new "data:texthtml".data = .error Panic.missingComma
    ∧ Url.new "http:example.org".data = .error Panic.missingSlashes
    ∧ Url.new "https:example.org".data = .error Panic.missingSlashes
    ∧ Url.new "file:etc/hosts".data = .error Panic.missingSlashes := by
  refine ⟨?_, ?_, ?_, ?_, ?_⟩ <;> (rw [Url.new.eq_def]; rfl)

/-- C3: the claim says an invalid port segment such as `http://host:abc/`
yields an `InvalidPort` error and never a panic.  The code panics instead:
`port.parse().expect("todo")` (lib.rs line 74), modelled as
`Panic.expectPortParse`. -/
theorem c3_invalid_port_panics :
    Url.new "http://host:abc/".data = .error Panic.expectPortParse
    ∧ Url.new "https://host:abc/".data = .error Panic.expectPortParse := by
  constructor <;> (rw [Url.new.eq_def]; rfl)

/-- C4: the claim says the bytes sent are the request line, a
`Host: {host}` header, the fixed `User-Agent` header and a blank line.  The
code's second write (lib.rs line 161) is `HOST {host}\r\n` — upper-case and
with no `:` — so the bytes differ from the claimed ones. -/
theorem c4_host_header_missing_colon :
    Url.request_response (.Web "http".data "example.org".data 80 "/".data) []
        = .ok (requestBytes "example.org".data "/".data,
               { version := [], status := [], explanation := [], headers := [], body := some [] })
    ∧ requestBytes "example.org".data "/".data
        = "GET / HTTP/1.0\r\nHOST example.org\r\nUser-Agent: Goat\r\n\r\n".data
    ∧ requestBytes "example.org".data "/".data
        ≠ "GET / HTTP/1.0\r\nHost: example.org\r\nUser-Agent: Goat\r\n\r\n".data :=
  ⟨rfl, rfl, by decide⟩

/-- C5: the claim says an unrecognized scheme yields `UnsupportedScheme`
rather than panicking.  The code's catch-all arm is `todo!("the rest")`
(lib.rs line 90), which panics; modelled as `Panic.todoScheme`. -/
theorem c5_unknown_scheme_panics :
    Url.new "ftp://example.org".data = .error Panic.todoScheme
    ∧ Url.new "mailto:bob@example.org".data = .error Panic.todoScheme := by
  constructor <;> (rw [Url.new.eq_def]; rfl)

/-- C6: path normalization of http/https URLs.  If the path tail after the
host split is non-empty it is prefixed with `/`; if the remainder ends with
`/` and the resulting path does not already end with `/`, a trailing `/` is
appended.  For a remainder `host/tail` this yields path `/` when the tail is
empty and `/tail` otherwise; without any `/` in the remainder the path is
empty.  In particular `http://example.org/` parses to path "/" and
`http://example.org` to path "". -/
theorem c6_path_normalization (host tail : List Char)
    (h1 : ':' ∉ host) (h2 : '/' ∉ host) :
    Url.new ("http://".data ++ host ++ '/' :: tail)
        = .ok (.Web "http".data host 80 (if tail = [] then ['/'] else '/' :: tail))
    ∧ Url.new ("http://".data ++ host) = .ok (.Web "http".data host 80 [])
    ∧ Url.new "http://example.org/".data = .ok (.Web "http".data "example.org".data 80 "/".data)
    ∧ Url.new "http://example.org".data = .ok (.Web "http".data "example.org".data 80 []) := by
  refine ⟨?_, ?_, ?_, ?_⟩
  · have hw : Url.new ("http://".data ++ host ++ '/' :: tail)
        = webArm "http".data ("//".data ++ host ++ '/' :: tail) :=
      new_eq_webArm "http".data ("//".data ++ host ++ '/' :: tail) (Or.inl rfl)
    rw [hw, webArm_hostTail "http".data host tail h1 h2]
    rfl
  · have hw : Url.new ("http://".data ++ host)
        = webArm "http".data ("//".data ++ host) :=
      new_eq_webArm "http".data ("//".data ++ host) (Or.inl rfl)
    rw [hw, webArm_hostOnly "http".data host h1 h2]
    rfl
  · rw [Url.new.eq_def]; rfl
  · rw [Url.new.eq_def]; rfl

/-- Witness for C6 at host "example.org" and tail "a". -/
theorem c6_path_normalization_witness :
    Url.new "http://example.org/a".data
        = .ok (.Web "http".data "example.org".data 80 "/a".data)
    ∧ Url.new "http://example.org".data
        = .ok (.Web "http".data "example.org".data 80 []) := by
  have h := c6_path_normalization "example.org".data "a".data (by decide) (by decide)
  exact ⟨h.1, h.2.1⟩

/-- C7 counterexample: the claim says the host[:port] part is split on the
LAST `:`, which on `http://a:b:80/` would give host "a:b" and port 80.  The
code splits on the FIRST `:` (`split_once`), making "b:80" the port segment,
whose parse fails and panics. -/
theorem c7_counterexample :
    Url.new "http://a:b:80/".data = .error Panic.expectPortParse
    ∧ Url.new "http://a:b:80/".data ≠ .ok (.Web "http".data "a:b".data 80 "/".data) := by
  constructor
  · rw [Url.new.eq_def]; rfl
  · rw [Url.new.eq_def]; decide

/-- C7 (amended): the host[:port] part is split on the FIRST `:` — the part
after that first colon, even if it contains further colons, is the port
segment — and when no `:` is present the whole string is the host and the
port takes the scheme default, 80 for http and 443 for https. -/
theorem c7_first_colon_split_and_defaults (host t tail : List Char)
    (h1 : ':' ∉ host) (h2 : '/' ∉ host) (h3 : '/' ∉ t) :
    Url.new ("http://".data ++ host ++ ':' :: t ++ '/' :: tail)
        = (match parseU16 t with
           | none => .error Panic.expectPortParse
           | some p => .ok (.Web "http".data host p (if tail = [] then ['/'] else '/' :: tail)))
    ∧ Url.new ("http://".data ++ host) = .ok (.Web "http".data host 80 [])
    ∧ Url.new ("https://".data ++ host) = .ok (.Web "https".data host 443 []) := by
  refine ⟨?_, ?_, ?_⟩
  · have hw : Url.new ("http://".data ++ host ++ ':' :: t ++ '/' :: tail)
        = webArm "http".data ("//".data ++ host ++ ':' :: t ++ '/' :: tail) :=
      new_eq_webArm "http".data ("//".data ++ host ++ ':' :: t ++ '/' :: tail) (Or.inl rfl)
    rw [hw, webArm_hostPortTail "http".data host t tail h1 h2 h3]
  · have hw : Url.new ("http://".data ++ host)
        = webArm "http".data ("//".data ++ host) :=
      new_eq_webArm "http".data ("//".data ++ host) (Or.inl rfl)
    rw [hw, webArm_hostOnly "http".data host h1 h2]
    rfl
  · have hw : Url.new ("https://".data ++ host)
        = webArm "https".data ("//".data ++ host) :=
      new_eq_webArm "https".data ("//".data ++ host) (Or.inr rfl)
    rw [hw, webArm_hostOnly "https".data host h1 h2]
    rfl

/-- Witness for C7 at host "example.org", port segment "8080", empty tail. -/
theorem c7_first_colon_split_and_defaults_witness :
    Url.new "http://example.org:8080/".data
        = .ok (.Web "http".data "example.org".data 8080 "/".data)
    ∧ Url.new "http://example.org".data = .ok (.Web "http".data "example.org".data 80 [])
    ∧ Url.new "https://example.org".data = .ok (.Web "https".data "example.org".data 443 []) := by
  have h := c7_first_colon_split_and_defaults "example.org".data "8080".data []
    (by decide) (by decide) (by decide)
  exact ⟨h.1, h.2.1, h.2.2⟩

/-- C8 counterexample: the claim says every `ViewSource` produced by a
successful parse wraps a `Web` variant.  Parsing `view-source:data:text/html,hi`
succeeds and wraps a `Data` variant. -/
theorem c8_counterexample :
    Url.new "view-source:data:text/html,hi".data
        = .ok (.ViewSource (.Data "data".data "text/html".data "hi".data))
    ∧ (Url.Data "data".data "text/html".data "hi".data).isWeb = false := by
  constructor
  · show Url.new ("view-source:".data ++ "data:text/html,hi".data) = _
    rw [new_viewSource_eq, Url.new.eq_def]
    rfl
  · rfl

/-- C8 (amended): a `ViewSource` produced by parse wraps exactly whatever
`Url` the recursive parse of the remainder after `view-source:` returns —
which is a `Web` variant when the remainder is an http/https URL, but can
just as well be a `Data`, `File`, or nested `ViewSource` value. -/
theorem c8_viewsource_wraps_recursive_parse (rest : List Char) :
    Url.new ("view-source:".data ++ rest) = (Url.new rest).map Url.ViewSource :=
  new_viewSource_eq rest

/-- C9: for well-formed `http://host/tail` inputs, parsing and then
rendering with the `Display` impl reproduces the normalized canonical form
`http://host:80/tail`, preserving the trailing slash exactly as in the
input. -/
theorem c9_roundtrip_render (host tail : List Char)
    (h0 : host ≠ []) (h1 : ':' ∉ host) (h2 : '/' ∉ host) :
    (Url.new ("http://".data ++ host ++ '/' :: tail)).map Url.render
      = .ok ("http://".data ++ host ++ ":80/".data ++ tail) := by
  have hw : Url.new ("http://".data ++ host ++ '/' :: tail)
      = webArm "http".data ("//".data ++ host ++ '/' :: tail) :=
    new_eq_webArm "http".data ("//".data ++ host ++ '/' :: tail) (Or.inl rfl)
  rw [hw, webArm_hostTail "http".data host tail h1 h2]
  have d1 : "http".data = ['h', 't', 't', 'p'] := rfl
  have d2 : "://".data = [':', '/', '/'] := rfl
  have d3 : "http://".data = ['h', 't', 't', 'p', ':', '/', '/'] := rfl
  have d4 : ":80/".data = [':', '8', '0', '/'] := rfl
  have hn : natChars 80 = ['8', '0'] := rfl
  cases tail with
  | nil =>
    show Except.ok (Url.render (.Web "http".data host 80 ['/'])) = _
    simp only [Url.render, hn, d1, d2, d3, d4]
    simp [List.append_assoc]
  | cons a as =>
    show Except.ok (Url.render (.Web "http".data host 80 ('/' :: a :: as))) = _
    simp only [Url.render, hn, d1, d2, d3, d4]
    simp [List.append_assoc]

/-- Witness for C9 at host "example.org" and tail "a/b/". -/
theorem c9_roundtrip_render_witness :
    (Url.new "http://example.org/a/b/".data).map Url.render
      = .ok "http://example.org:80/a/b/".data := by
  have h := c9_roundtrip_render "example.org".data "a/b/".data
    (by decide) (by decide) (by decide)
  exact h

/-- C10: an http/https URL whose port segment is all decimal digits with
value above 65535 makes the parse panic (`expect("todo")` on the failed
`u16` conversion) rather than return a `Url` or a typed error, because the
port string is parsed directly into a 16-bit integer. -/
theorem c10_port_overflow_panics (host pstr : List Char)
    (h1 : ':' ∉ host) (h2 : '/' ∉ host) (hne : pstr ≠ [])
    (hd : ∀ c ∈ pstr, c.isDigit = true) (hv : 65535 < decimalValue pstr) :
    Url.new ("http://".data ++ host ++ ':' :: pstr ++ "/".data) = .error Panic.expectPortParse
    ∧ Url.new ("https://".data ++ host ++ ':' :: pstr ++ "/".data)
        = .error Panic.expectPortParse := by
  have h3 : '/' ∉ pstr := fun m => absurd (hd '/' m) (by decide)
  have hp : parseU16 pstr = none := parseU16_overflow pstr hne hd hv
  constructor
  · have hw : Url.new ("http://".data ++ host ++ ':' :: pstr ++ "/".data)
        = webArm "http".data ("//".data ++ host ++ ':' :: pstr ++ '/' :: []) :=
      new_eq_webArm "http".data ("//".data ++ host ++ ':' :: pstr ++ '/' :: []) (Or.inl rfl)
    rw [hw, webArm_hostPortTail "http".data host pstr [] h1 h2 h3, hp]
  · have hw : Url.new ("https://".data ++ host ++ ':' :: pstr ++ "/".data)
        = webArm "https".data ("//".data ++ host ++ ':' :: pstr ++ '/' :: []) :=
      new_eq_webArm "https".data ("//".data ++ host ++ ':' :: pstr ++ '/' :: []) (Or.inr rfl)
    rw [hw, webArm_hostPortTail "https".data host pstr [] h1 h2 h3, hp]

/-- Witness for C10 at host "host" and port segment "99999". -/
theorem c10_port_overflow_panics_witness :
    Url.new "http://host:99999/".data = .error Panic.expectPortParse
    ∧ Url.new "https://host:99999/".data = .error Panic.expectPortParse := by
  have h := c10_port_overflow_panics "host".data "99999".data
    (by decide) (by decide) (by decide) (by decide) (by decide)
  exact ⟨h.1, h.2⟩
